import Mathlib

/-!
Verification development for the UDS service-data codec of this repository
(`udsoncan/base_service.py` and the concrete service declarations under
`udsoncan/services/`).

The Python code is shallowly embedded:

* Python `struct` format characters used by the repository (`b B h H i I q Q`,
  `f`, `d`, `Ns`, and the variable-length placeholder `"\x7b\x7ds"`) become the
  inductive `FmtTok`.  All formats in the source are big-endian (the module
  constant `_ENDIANNESS = ">"`), so endianness is fixed globally and the `">"`
  prefix character is left implicit.
* Python runtime values flowing through the codec (`int`, `float`, `bytes`)
  become the inductive `UdsVal`.  Floats are modelled by exact rationals; the
  IEEE-754 byte images produced by `struct` for `f`/`d` are abstracted to
  fixed blocks of the correct length (4 and 8 bytes) because no statement in
  this development depends on the bit content of a float image, only on its
  size.  All integer byte images are computed exactly (two's complement,
  big-endian).
* Fallible Python operations (`struct.error`, `ValueError`, `TypeError`,
  `IndexError`) become `Except UdsErr`.
* A `@dataclass` deriving from `ServiceData` becomes a `ServiceDataCls`
  (the ordered list of its `UdsField` descriptors); an instance becomes an
  `SDRec` carrying the class, the `subfunction` attribute and one value per
  descriptor in declaration order.  `getattr` by parameter name is modelled
  by positional access through `List.zip`, which agrees with the source
  because dataclass field names are unique and values are stored in
  declaration order.
-/

deriving instance DecidableEq for Except

namespace UdsModel

/-! ### Byte-level primitives (Python `struct`, big-endian mode) -/

/-- Big-endian byte image of a natural number in `k` bytes (the value is taken
modulo `256 ^ k`, most significant byte first). -/
def beBytes : Nat → Nat → List Nat
  | 0, _ => []
  | k + 1, v => beBytes k (v / 256) ++ [v % 256]

/-- Value of a big-endian byte list. -/
def beVal (bs : List Nat) : Nat :=
  bs.foldl (fun a b => a * 256 + b) 0

/-- Two's-complement image of an integer in `k` bytes. -/
def toTwos (k : Nat) (i : Int) : Nat :=
  (i % ((2 : Int) ^ (8 * k))).toNat

/-- Decode a `k`-byte unsigned value as a (possibly signed) integer. -/
def fromTwos (signed : Bool) (k : Nat) (n : Nat) : Int :=
  if signed && decide (n ≥ 2 ^ (8 * k - 1)) then (n : Int) - (2 : Int) ^ (8 * k)
  else (n : Int)

/-- Range admitted by `struct` for an integer format of `k` bytes. -/
def intInRange (signed : Bool) (k : Nat) (i : Int) : Bool :=
  match signed with
  | true => decide (-((2 : Int) ^ (8 * k - 1)) ≤ i ∧ i < (2 : Int) ^ (8 * k - 1))
  | false => decide (0 ≤ i ∧ i < (2 : Int) ^ (8 * k))

/-! ### Format tokens

`tInt signed k` covers the characters `b B h H i I q Q` (`k` bytes, signed or
unsigned); `tF32`/`tF64` cover `f`/`d`; `tS n` covers `"ns"` (fixed byte block,
padded or truncated to `n` bytes by `struct`); `tVarS` covers the two-character
sequence `"\x7b\x7ds"` that `ServiceData` treats as a variable-length byte
block whose count is injected by `str.format`. -/
inductive FmtTok where
  | tInt (signed : Bool) (k : Nat)
  | tF32
  | tF64
  | tS (n : Nat)
  | tVarS
deriving DecidableEq, Repr

/-- Embedding of `struct.calcsize` of one token after the source has removed the
placeholder characters (`fmt.replace("\x7b\x7d", "")`): the bare `s` left
behind by `tVarS` counts as one byte, exactly as in
`ServiceData._get_fmt_size_pairs`. -/
def tokSize : FmtTok → Nat
  | .tInt _ k => k
  | .tF32 => 4
  | .tF64 => 8
  | .tS n => n
  | .tVarS => 1

/-- True for the variable-length placeholder token. -/
def isVarTok : FmtTok → Bool
  | .tVarS => true
  | _ => false

/-! ### Python runtime values and numbers -/

/-- A Python `float`, modelled as an exact (unreduced) fraction
`num / den` with a positive denominator.  Keeping the fraction unreduced
makes every arithmetic operation a plain integer computation, so all
concrete evaluations reduce in the kernel. -/
structure PyFloat where
  num : Int
  den : Nat
deriving DecidableEq, Repr

/-- Mathematical equality of two fractions (cross multiplication). -/
def PyFloat.feq (a b : PyFloat) : Bool :=
  a.num * (b.den : Int) == b.num * (a.den : Int)

/-- Fraction multiplication. -/
def PyFloat.fmul (a b : PyFloat) : PyFloat :=
  ⟨a.num * b.num, a.den * b.den⟩

/-- Fraction inverse (the zero fraction is never inverted by the embedded
code: a `resolution` of `0` would already fail in Python at field-definition
time with `ZeroDivisionError`). -/
def PyFloat.finv (a : PyFloat) : PyFloat :=
  if a.num ≥ 0 then ⟨(a.den : Int), a.num.toNat⟩
  else ⟨-(a.den : Int), (-a.num).toNat⟩

/-- A Python `int` or `float`. -/
inductive PyNum where
  | pint (i : Int)
  | pfloat (q : PyFloat)
deriving DecidableEq, Repr

/-- A value carried by a `ServiceData` parameter (`int`, `float` or `bytes`). -/
inductive UdsVal where
  | vInt (i : Int)
  | vFloat (q : PyFloat)
  | vBytes (bs : List Nat)
deriving DecidableEq, Repr

/-- Errors surfaced by the embedded code.  `transcode` is `struct.error`
(aliased `TranscodeError` in the source), `missingData` is the `ValueError`
raised by the two guard branches of `ServiceData.unpack`, `typeErr` and
`indexErr` are Python `TypeError` / `IndexError`. -/
inductive UdsErr where
  | transcode
  | missingData
  | typeErr
  | indexErr
deriving DecidableEq, Repr

/-- Python equality `==` between parameter values: numeric values compare by
mathematical value across `int`/`float`, `bytes` compare as sequences, and a
numeric value never equals a `bytes` value. -/
def pyEq : UdsVal → UdsVal → Bool
  | .vInt i, .vInt j => i == j
  | .vInt i, .vFloat q => i * (q.den : Int) == q.num
  | .vFloat q, .vInt i => q.num == i * (q.den : Int)
  | .vFloat a, .vFloat b => a.feq b
  | .vBytes a, .vBytes b => a == b
  | _, _ => false

/-- Embedding of `bytes * int` replication (Python semantics: a non-positive count yields
the empty byte string). -/
def repBytes (bs : List Nat) : Int → List Nat
  | .ofNat n => (List.replicate n bs).flatten
  | .negSucc _ => []

/-- Python multiplication `value * factor` as used by the scaling generators:
numbers multiply numerically (any float operand makes the result a float),
`bytes * int` replicates, and `bytes * float` raises `TypeError`. -/
def pyMul : UdsVal → PyNum → Except UdsErr UdsVal
  | .vInt i, .pint j => .ok (.vInt (i * j))
  | .vInt i, .pfloat q => .ok (.vFloat (PyFloat.fmul ⟨i, 1⟩ q))
  | .vFloat x, .pint j => .ok (.vFloat (x.fmul ⟨j, 1⟩))
  | .vFloat x, .pfloat q => .ok (.vFloat (x.fmul q))
  | .vBytes bs, .pint j => .ok (.vBytes (repBytes bs j))
  | .vBytes _, .pfloat _ => .error .typeErr

/-- Python `len` as applied to an element of the packed argument list
(`bytes` have a length; `int` and `float` raise `TypeError`). -/
def pyLen : UdsVal → Except UdsErr Nat
  | .vBytes bs => .ok bs.length
  | _ => .error .typeErr

/-! ### The struct codec

IEEE-754 images are abstracted: `f32enc`/`f64enc` return blocks of the correct
byte length and `tF32`/`tF64` decode to a fixed rational.  No theorem below
depends on the bit content of a float image. -/

/-- Abstracted 4-byte image of a `float` packed with format `f`. -/
def f32enc (_ : PyFloat) : List Nat := List.replicate 4 0

/-- Abstracted 8-byte image of a `float` packed with format `d`. -/
def f64enc (_ : PyFloat) : List Nat := List.replicate 8 0

/-- Pad with zero bytes or truncate to exactly `n` bytes (the `struct`
semantics of the `ns` format). -/
def padTrunc (n : Nat) (bs : List Nat) : List Nat :=
  bs.take n ++ List.replicate (n - bs.length) 0

/-- Embedding of `struct.pack` of a single token applied to a single value.  Integer
formats require an `int` in range; `f`/`d` accept `int` or `float`; `ns`
requires `bytes`.  Everything else raises `struct.error`. -/
def encTok : FmtTok → UdsVal → Except UdsErr (List Nat)
  | .tInt signed k, v =>
      match v with
      | .vInt i =>
          if intInRange signed k i then .ok (beBytes k (toTwos k i))
          else .error .transcode
      | _ => .error .transcode
  | .tF32, v =>
      match v with
      | .vInt i => .ok (f32enc ⟨i, 1⟩)
      | .vFloat q => .ok (f32enc q)
      | .vBytes _ => .error .transcode
  | .tF64, v =>
      match v with
      | .vInt i => .ok (f64enc ⟨i, 1⟩)
      | .vFloat q => .ok (f64enc q)
      | .vBytes _ => .error .transcode
  | .tS n, v =>
      match v with
      | .vBytes bs => .ok (padTrunc n bs)
      | _ => .error .transcode
  | .tVarS, _ => .error .transcode

/-- Embedding of `struct.unpack` of a single token from exactly `tokSize` bytes. -/
def decTok : FmtTok → List Nat → UdsVal
  | .tInt signed k, bs => .vInt (fromTwos signed k (beVal bs))
  | .tF32, _ => .vFloat ⟨0, 1⟩
  | .tF64, _ => .vFloat ⟨0, 1⟩
  | .tS _, bs => .vBytes bs
  | .tVarS, bs => .vBytes bs

/-- Embedding of `struct.pack` over a token list: one value per token, in order; a count
mismatch or an unconsumed placeholder raises `struct.error`. -/
def structPack : List FmtTok → List UdsVal → Except UdsErr (List Nat)
  | [], [] => .ok []
  | [], _ :: _ => .error .transcode
  | _ :: _, [] => .error .transcode
  | t :: ts, v :: vs =>
      match encTok t v with
      | .error e => .error e
      | .ok b =>
          match structPack ts vs with
          | .error e => .error e
          | .ok rest => .ok (b ++ rest)

/-- Embedding of `struct.unpack` over a token list: the buffer length must match the
format size exactly, otherwise `struct.error`. -/
def structUnpack : List FmtTok → List Nat → Except UdsErr (List UdsVal)
  | [], [] => .ok []
  | [], _ :: _ => .error .transcode
  | t :: ts, bs =>
      if isVarTok t then .error .transcode
      else if tokSize t ≤ bs.length then
        match structUnpack ts (bs.drop (tokSize t)) with
        | .error e => .error e
        | .ok vs => .ok (decTok t (bs.take (tokSize t)) :: vs)
      else .error .transcode

/-! ### Field descriptors and records (`UdsField`, `ServiceData`) -/

/-- Embedding of `UdsField`: the format string (as a token list), the
applicable subfunction set (`[]` means "all subfunctions", mirroring the empty
Python set), the declared `resolution` and the dataclass default value. -/
structure UdsField where
  name : String
  fmt : List FmtTok
  subfunctions : List Nat := []
  resolution : PyNum := .pint 1
  default : UdsVal
deriving DecidableEq, Repr

/-- Python truth of `resolution == 1` (true for both `int` 1 and `float` 1.0). -/
def PyNum.isOne : PyNum → Bool
  | .pint i => i == 1
  | .pfloat q => q.num == (q.den : Int)

/-- Fraction value of a Python number. -/
def PyNum.toFrac : PyNum → PyFloat
  | .pint i => ⟨i, 1⟩
  | .pfloat q => q

/-- Embedding of `UdsField.scale_factor`: the exact `int` 1 when `resolution == 1`
(the source keeps `1` rather than `1.0` to avoid turning integer parameters
into floats), otherwise the float `1 / resolution`. -/
def UdsField.scale_factor (f : UdsField) : PyNum :=
  if f.resolution.isOne then .pint 1 else .pfloat f.resolution.toFrac.finv

/-- Embedding of `UdsField.has_variable_length`: true iff the format string contains the
placeholder `"\x7b\x7d"`. -/
def UdsField.has_variable_length (f : UdsField) : Bool :=
  f.fmt.any isVarTok

/-- Embedding of `UdsField.supports_subfonction` (sic): true iff the declared subfunction
set is empty or contains the given subfunction. -/
def UdsField.supports_subfonction (f : UdsField) (subfunction : Nat) : Bool :=
  f.subfunctions.isEmpty || f.subfunctions.contains subfunction

/-- A concrete `ServiceData` subclass: its `UdsField` descriptors in
declaration order (the plain `subfunction` dataclass field of the base class
is not a `UdsField` and is kept on the instance instead). -/
structure ServiceDataCls where
  fields : List UdsField
deriving DecidableEq, Repr

/-- An instance of a `ServiceData` subclass: `vals` holds one value per
descriptor of `cls.fields`, in declaration order. -/
structure SDRec where
  cls : ServiceDataCls
  subfunction : Nat
  vals : List UdsVal
deriving DecidableEq, Repr

/-- Embedding of `ServiceData._iter_parameter_fields`: the `UdsField`s applicable to the
given subfunction, in declaration order. -/
def applicableFields (cls : ServiceDataCls) (subfunction : Nat) : List UdsField :=
  cls.fields.filter (fun f => f.supports_subfonction subfunction)

/-- Embedding of `ServiceData.get_parameter_names`. -/
def parameterNames (cls : ServiceDataCls) (subfunction : Nat) : List String :=
  (applicableFields cls subfunction).map UdsField.name

/-- Embedding of `ServiceData.get_parameter_resolutions`. -/
def parameterResolutions (cls : ServiceDataCls) (subfunction : Nat) : List PyNum :=
  (applicableFields cls subfunction).map UdsField.resolution

/-- Embedding of `ServiceData.get_parameter_scaling_factors`. -/
def parameterScalingFactors (cls : ServiceDataCls) (subfunction : Nat) : List PyNum :=
  (applicableFields cls subfunction).map UdsField.scale_factor

/-- Embedding of `ServiceData.get_payload_fmt`: concatenation of the applicable fields'
format strings (the `">"` endianness prefix is implicit). -/
def payloadFmt (cls : ServiceDataCls) (subfunction : Nat) : List FmtTok :=
  (applicableFields cls subfunction).flatMap UdsField.fmt

/-- Embedding of `str.split` on the placeholder, with each placeholder re-attached at the
head of the chunk that follows it, exactly as `_iter_payload_fmt` builds
`(">" + chunk0, ">\x7b\x7d" + chunk1, ...)`.  The result is never empty:
an empty joined format yields one empty chunk, like `"".split`. -/
def splitOnVar : List FmtTok → List (List FmtTok)
  | [] => [[]]
  | t :: rest =>
      if t = .tVarS then
        match splitOnVar rest with
        | c :: cs => [] :: (FmtTok.tVarS :: c) :: cs
        | [] => [[], [FmtTok.tVarS]]
      else
        match splitOnVar rest with
        | c :: cs => (t :: c) :: cs
        | [] => [[t]]

/-- Embedding of `ServiceData._iter_payload_fmt`: the static-size chunks of the payload
format for the given subfunction. -/
def iterPayloadFmt (cls : ServiceDataCls) (subfunction : Nat) : List (List FmtTok) :=
  splitOnVar (payloadFmt cls subfunction)

/-- Embedding of `struct.calcsize(fmt.replace("\x7b\x7d", ""))` for one chunk. -/
def chunkCalcSize (fmt : List FmtTok) : Nat :=
  (fmt.map tokSize).sum

/-- Embedding of `ServiceData._get_fmt_size_pairs`.  Note the source calls
`_iter_payload_fmt()` with the default subfunction `0` here, not the
subfunction being unpacked. -/
def fmtSizePairs (cls : ServiceDataCls) : List (List FmtTok × Nat) :=
  (iterPayloadFmt cls 0).map (fun fmt => (fmt, chunkCalcSize fmt))

/-- Embedding of `ServiceData.has_variadic_fields`. -/
def hasVariadicFields (cls : ServiceDataCls) (subfunction : Nat) : Bool :=
  (applicableFields cls subfunction).any UdsField.has_variable_length

/-- Embedding of `ServiceData.get_variadic_fields_indexes`: positions (within the
applicable-field enumeration) of the variable-length fields. -/
def variadicFieldsIndexes (cls : ServiceDataCls) (subfunction : Nat) : List Nat :=
  ((applicableFields cls subfunction).enum.filter
    (fun p => p.2.has_variable_length)).map Prod.fst

/-- The applicable `(descriptor, instance value)` pairs of a record, in
declaration order; models `map(self.__getattribute__, names)` (field names
are unique and `vals` is stored in declaration order). -/
def applicablePairs (r : SDRec) (subfunction : Nat) : List (UdsField × UdsVal) :=
  (r.cls.fields.zip r.vals).filter (fun p => p.1.supports_subfonction subfunction)

/-- The scaling generator of `get_parameter_values(..., scale=True)` /
`pack`: each applicable value multiplied by its field's `scale_factor`. -/
def scaleList : List (UdsField × UdsVal) → Except UdsErr (List UdsVal)
  | [] => .ok []
  | (f, v) :: rest =>
      match pyMul v f.scale_factor with
      | .error e => .error e
      | .ok w =>
          match scaleList rest with
          | .error e => .error e
          | .ok ws => .ok (w :: ws)

/-- Embedding of `ServiceData.get_parameter_items`: names zipped with scaled values. -/
def getParameterItems (r : SDRec) (subfunction : Nat) :
    Except UdsErr (List (String × UdsVal)) :=
  match scaleList (applicablePairs r subfunction) with
  | .error e => .error e
  | .ok vs => .ok ((parameterNames r.cls subfunction).zip vs)

/-- Python `==` on one `(name, value)` item (tuple equality). -/
def itemEq (a b : String × UdsVal) : Bool :=
  a.1 == b.1 && pyEq a.2 b.2

/-- Embedding of `ServiceData.__eq__`: `all` over the truncating `zip` of both records'
parameter items, each computed with the default subfunction `0` (the source
calls `get_parameter_items()` without an argument on both sides). -/
def sdEq (r1 r2 : SDRec) : Except UdsErr Bool :=
  match getParameterItems r1 0 with
  | .error e => .error e
  | .ok l1 =>
      match getParameterItems r2 0 with
      | .error e => .error e
      | .ok l2 => .ok ((l1.zip l2).all (fun p => itemEq p.1 p.2))

/-! ### `ServiceData.pack` -/

/-- Python `list.insert` (an index past the end appends; indexes here are
the non-negative positions produced by `enumerate`). -/
def pyInsert (x : UdsVal) : Nat → List UdsVal → List UdsVal
  | _, [] => [x]
  | 0, a :: l => x :: a :: l
  | n + 1, a :: l => a :: pyInsert x n l

/-- The insertion loop of `pack`:
`for length, position in zip(lengths, length_indexes): arg_list.insert(position, length)`.
Each insertion uses the position computed on the original argument list. -/
def insertLengthsPy : List (Nat × Nat) → List UdsVal → List UdsVal
  | [], args => args
  | (len, pos) :: rest, args => insertLengthsPy rest (pyInsert (.vInt len) pos args)

/-- Embedding of `tuple(map(len, (arg_list[i] for i in length_indexes)))`: the byte length
of each variable-length argument, read at its index in the original list. -/
def lengthsOf (args : List UdsVal) : List Nat → Except UdsErr (List Nat)
  | [] => .ok []
  | i :: rest =>
      match args.get? i with
      | none => .error .indexErr
      | some v =>
          match pyLen v with
          | .error e => .error e
          | .ok n =>
              match lengthsOf args rest with
              | .error e => .error e
              | .ok ns => .ok (n :: ns)

/-- Embedding of `str.format` on a format chunk: each placeholder consumes the next length
(`IndexError` when lengths run out; surplus lengths are ignored, as in
Python). -/
def formatFmt : List FmtTok → List Nat → Except UdsErr (List FmtTok)
  | [], _ => .ok []
  | t :: rest, ns =>
      if t = .tVarS then
        match ns with
        | [] => .error .indexErr
        | n :: ns2 =>
            match formatFmt rest ns2 with
            | .error e => .error e
            | .ok ts => .ok (FmtTok.tS n :: ts)
      else
        match formatFmt rest ns with
        | .error e => .error e
        | .ok ts => .ok (t :: ts)

/-- Embedding of `ServiceData.pack`.  Faithful to the source, including the slip on the
multi-chunk path where the final format string is built from
`self.get_payload_fmt()` with the *default* subfunction instead of
`self.subfunction`. -/
def pack (r : SDRec) : Except UdsErr (List Nat) :=
  let sf := r.subfunction
  let formatStrings := iterPayloadFmt r.cls sf
  if formatStrings.isEmpty then .ok []
  else
    match scaleList (applicablePairs r sf) with
    | .error e => .error e
    | .ok args =>
        match formatStrings with
        | [fmt] => structPack fmt args
        | _ =>
            let lengthIndexes := variadicFieldsIndexes r.cls sf
            match lengthsOf args lengthIndexes with
            | .error e => .error e
            | .ok lengths =>
                let argList := insertLengthsPy (lengths.zip lengthIndexes) args
                match formatFmt (payloadFmt r.cls 0) lengths with
                | .error e => .error e
                | .ok fmt => structPack fmt argList

/-! ### `ServiceData.unpack` -/

/-- Embedding of `cls()`: the default-constructed record (`subfunction = NO_SUBFUNCTION`,
every parameter at its declared default). -/
def defaultRec (cls : ServiceDataCls) : SDRec :=
  ⟨cls, 0, cls.fields.map UdsField.default⟩

/-- The keyword dictionary `{k: v * res for k, v, res in zip(names, args,
resolutions)}` (a three-way `zip`, truncating to the shortest sequence). -/
def kwargsOf : List String → List UdsVal → List PyNum →
    Except UdsErr (List (String × UdsVal))
  | k :: ks, v :: vs, res :: ress =>
      match pyMul v res with
      | .error e => .error e
      | .ok w =>
          match kwargsOf ks vs ress with
          | .error e => .error e
          | .ok rest => .ok ((k, w) :: rest)
  | _, _, _ => .ok []

/-- Embedding of `cls(subfunction=subfunction, **kwargs)`: applicable parameters take the
decoded value, all other fields keep their dataclass default. -/
def mkFromKwargs (cls : ServiceDataCls) (subfunction : Nat)
    (kwargs : List (String × UdsVal)) : SDRec :=
  ⟨cls, subfunction, cls.fields.map (fun f => (kwargs.lookup f.name).getD f.default)⟩

/-- Decode the argument list into a record (shared tail of both unpack
paths). -/
def buildRec (cls : ServiceDataCls) (subfunction : Nat) (args : List UdsVal) :
    Except UdsErr SDRec :=
  match kwargsOf (parameterNames cls subfunction) args
      (parameterResolutions cls subfunction) with
  | .error e => .error e
  | .ok kw => .ok (mkFromKwargs cls subfunction kw)

/-- The chunk loop of the multi-chunk `unpack` path, with `start_index`,
`end_index` and the accumulated argument list threaded explicitly.  When the
accumulated list is non-empty its last element is popped as the next chunk's
length: a non-`int` length raises `TypeError` (Python `int += bytes`), a
negative one makes `struct` reject the substituted format.  Slices clamp to
the buffer like Python slices. -/
def unpackLoop (data : List Nat) :
    List (List FmtTok × Nat) → Nat → Nat → List UdsVal → Except UdsErr (List UdsVal)
  | [], _, _, args => .ok args
  | (fmt, size) :: rest, start, stop, args =>
      match args.getLast? with
      | none =>
          match structUnpack fmt ((data.drop start).take (stop + size - start)) with
          | .error e => .error e
          | .ok vs => unpackLoop data rest (stop + size) (stop + size) (args ++ vs)
      | some (.vInt i) =>
          if i < 0 then .error .transcode
          else
            match formatFmt fmt [i.toNat] with
            | .error e => .error e
            | .ok fmt2 =>
                match structUnpack fmt2
                    ((data.drop start).take (stop + i.toNat + size - start)) with
                | .error e => .error e
                | .ok vs =>
                    unpackLoop data rest (stop + i.toNat + size) (stop + i.toNat + size)
                      (args.dropLast ++ vs)
      | some _ => .error .typeErr

/-- Embedding of `ServiceData.unpack`.  The two guard branches raise the `ValueError`s the
spec names `MissingDataError`; the multi-chunk path walks
`_get_fmt_size_pairs()` (which the source computes for the default
subfunction). -/
def unpack (cls : ServiceDataCls) (data : List Nat) (subfunction : Nat) :
    Except UdsErr SDRec :=
  let names := parameterNames cls subfunction
  if names.isEmpty then
    if data.isEmpty then .ok (defaultRec cls) else .error .missingData
  else if data.isEmpty then .error .missingData
  else
    match iterPayloadFmt cls subfunction with
    | [fmt] =>
        match structUnpack fmt data with
        | .error e => .error e
        | .ok args => buildRec cls subfunction args
    | _ =>
        match unpackLoop data (fmtSizePairs cls) 0 0 [] with
        | .error e => .error e
        | .ok args => buildRec cls subfunction args

/-! ### `pack` with the receiver threaded as state

`pack` is an instance method; to state its frame property the receiver is
threaded through the translation as explicit state.  The body of the source
method (base_service.py lines 409-449) only reads attributes — it binds
locals, builds a fresh `arg_list` and returns new bytes, and contains no
assignment to `self` — so every step forwards the state unchanged. -/
def packSt (r : SDRec) : Except UdsErr (List Nat) × SDRec :=
  let s0 := r
  let sf := s0.subfunction
  let s1 := s0
  let formatStrings := iterPayloadFmt s1.cls sf
  let s2 := s1
  if formatStrings.isEmpty then (.ok [], s2)
  else
    match scaleList (applicablePairs s2 sf) with
    | .error e => (.error e, s2)
    | .ok args =>
        match formatStrings with
        | [fmt] => (structPack fmt args, s2)
        | _ =>
            let lengthIndexes := variadicFieldsIndexes s2.cls sf
            match lengthsOf args lengthIndexes with
            | .error e => (.error e, s2)
            | .ok lengths =>
                let argList := insertLengthsPy (lengths.zip lengthIndexes) args
                match formatFmt (payloadFmt s2.cls 0) lengths with
                | .error e => (.error e, s2)
                | .ok fmt => (structPack fmt argList, s2)

/-! ### Negative-response validation (`BaseService`)

`response_code.py` is not part of the sources provided under `src/`; only the
member names referenced by `base_service.py` are.  Modelled from the spec:
the numeric code points follow the ISO 14229 Annex A assignments for exactly
the names `base_service.py` uses (the source cites "ISO-14229:2006 Table A.1"
at the declaration of the always-valid list). -/
namespace ResponseCode

def GeneralReject : Nat := 0x10
def ServiceNotSupported : Nat := 0x11
def SubFunctionNotSupported : Nat := 0x12
def IncorrectMessageLengthOrInvalidFormat : Nat := 0x13
def ResponseTooLong : Nat := 0x14
def BusyRepeatRequest : Nat := 0x21
def ConditionsNotCorrect : Nat := 0x22
def NoResponseFromSubnetComponent : Nat := 0x25
def FailurePreventsExecutionOfRequestedAction : Nat := 0x26
def RequestOutOfRange : Nat := 0x31
def SecurityAccessDenied : Nat := 0x33
def AuthenticationRequired : Nat := 0x34
def SecureDataTransmissionRequired : Nat := 0x38
def SecureDataTransmissionNotAllowed : Nat := 0x39
def RequestCorrectlyReceived_ResponsePending : Nat := 0x78
def SubFunctionNotSupportedInActiveSession : Nat := 0x7E
def ServiceNotSupportedInActiveSession : Nat := 0x7F
def ResourceTemporarilyNotAvailable : Nat := 0x94

end ResponseCode

/-- Embedding of `BaseService.always_valid_negative_response`, in source order. -/
def alwaysValidNegativeResponse : List Nat :=
  [ResponseCode.GeneralReject,
   ResponseCode.ServiceNotSupported,
   ResponseCode.ResponseTooLong,
   ResponseCode.BusyRepeatRequest,
   ResponseCode.NoResponseFromSubnetComponent,
   ResponseCode.FailurePreventsExecutionOfRequestedAction,
   ResponseCode.SecurityAccessDenied,
   ResponseCode.AuthenticationRequired,
   ResponseCode.SecureDataTransmissionRequired,
   ResponseCode.SecureDataTransmissionNotAllowed,
   ResponseCode.RequestCorrectlyReceived_ResponsePending,
   ResponseCode.ServiceNotSupportedInActiveSession,
   ResponseCode.ResourceTemporarilyNotAvailable]

/-- A concrete `BaseService` subclass, as far as negative-response validation
is concerned: its declared supported set and whether it uses a subfunction
byte (`use_subfunction`). -/
structure ServiceCls where
  supported_negative_response : List Nat
  use_subfunction : Bool
deriving DecidableEq, Repr

/-- Embedding of `BaseService.is_supported_negative_response`: the source sets `supported`
through four independent `if` statements, equivalent to this disjunction. -/
def isSupportedNegativeResponse (s : ServiceCls) (code : Nat) : Bool :=
  s.supported_negative_response.contains code
  || alwaysValidNegativeResponse.contains code
  || (decide (0x80 ≤ code) && decide (code < 0xFF)
      && s.supported_negative_response.contains ResponseCode.ConditionsNotCorrect)
  || (code == ResponseCode.SubFunctionNotSupportedInActiveSession && s.use_subfunction)

/-! ### Concrete record types from the repository and its test suite -/

/-- Embedding of `SimpleServiceData` (test suite): `an_int = uds_field(42, "d")`,
`a_float = uds_field(3.14, "f")`. -/
def SimpleServiceData : ServiceDataCls :=
  ⟨[{ name := "an_int", fmt := [.tF64], default := .vInt 42 },
    { name := "a_float", fmt := [.tF32], default := .vFloat ⟨157, 50⟩ }]⟩

/-- Embedding of `SimpleVariadicServiceData` (test suite): `an_int = uds_field(42, "d")`,
`some_bytes = uds_field(b"", "h\x7b\x7ds")`, `a_float = uds_field(3.14, "f")`. -/
def SimpleVariadicServiceData : ServiceDataCls :=
  ⟨[{ name := "an_int", fmt := [.tF64], default := .vInt 42 },
    { name := "some_bytes", fmt := [.tInt true 2, .tVarS], default := .vBytes [] },
    { name := "a_float", fmt := [.tF32], default := .vFloat ⟨157, 50⟩ }]⟩

/-- Embedding of `AdvancedServiceData` (test suite): `an_int = uds_field(42, "d")`,
`a_float = uds_field(3.14, "f", subfunctions=1)`. -/
def AdvancedServiceData : ServiceDataCls :=
  ⟨[{ name := "an_int", fmt := [.tF64], default := .vInt 42 },
    { name := "a_float", fmt := [.tF32], subfunctions := [1],
      default := .vFloat ⟨157, 50⟩ }]⟩

/-- Embedding of `ResponseDataPost2006` (`services/diagnostic_session_control.py`):
`p2_server_max = uds_field(100.0, "H", resolution=.001)`,
`p2_star_server_max = uds_field(100.0, "H", resolution=.01)`.  Both fields
declare the unsigned 2-byte integer format together with a non-unit
resolution. -/
def ResponseDataPost2006 : ServiceDataCls :=
  ⟨[{ name := "p2_server_max", fmt := [.tInt false 2],
      resolution := .pfloat ⟨1, 1000⟩, default := .vFloat ⟨100, 1⟩ },
    { name := "p2_star_server_max", fmt := [.tInt false 2],
      resolution := .pfloat ⟨1, 100⟩, default := .vFloat ⟨100, 1⟩ }]⟩

/-- A record type declaring two variable-length fields, each with the format
`"h\x7b\x7ds"` accepted by `uds_field`. -/
def TwoVariadicServiceData : ServiceDataCls :=
  ⟨[{ name := "first_bytes", fmt := [.tInt true 2, .tVarS], default := .vBytes [] },
    { name := "second_bytes", fmt := [.tInt true 2, .tVarS], default := .vBytes [] }]⟩

/-- A `TwoVariadicServiceData` instance with one and two payload bytes. -/
def twoVarRec : SDRec :=
  ⟨TwoVariadicServiceData, 0, [.vBytes [1], .vBytes [2, 3]]⟩

/-- A record type mixing one variable-length field (all subfunctions) with a
subfunction-specific fixed field. -/
def VariadicWithSubfunctionData : ServiceDataCls :=
  ⟨[{ name := "some_bytes", fmt := [.tInt true 2, .tVarS], default := .vBytes [] },
    { name := "a_float", fmt := [.tF32], subfunctions := [1],
      default := .vFloat ⟨157, 50⟩ }]⟩

/-- A `VariadicWithSubfunctionData` instance packed under subfunction 1. -/
def variadicSubfunctionRec : SDRec :=
  ⟨VariadicWithSubfunctionData, 1, [.vBytes [1, 2], .vFloat ⟨1, 2⟩]⟩

/-- A record type whose single field applies only to subfunction 1. -/
def OnlySubfunctionOneData : ServiceDataCls :=
  ⟨[{ name := "level", fmt := [.tInt true 1], subfunctions := [1],
      default := .vInt 0 }]⟩

/-- Embedding of `ServiceData` itself / `EmptyServiceData`: no `UdsField` parameters. -/
def EmptyServiceData : ServiceDataCls := ⟨[]⟩

/-- A 1-byte signed integer field (`uds_field(0, "b")`). -/
def tinyIntField : UdsField :=
  { name := "small_int", fmt := [.tInt true 1], default := .vInt 0 }

/-- A length-prefixed byte-block field (`uds_field(b"", "h\x7b\x7ds")`). -/
def tinyBytesField : UdsField :=
  { name := "some_bytes", fmt := [.tInt true 2, .tVarS], default := .vBytes [] }

/-- A minimal one-variadic record type used as a witness: a 1-byte integer
followed by a length-prefixed byte block. -/
def TinyVariadicServiceData : ServiceDataCls :=
  ⟨[tinyIntField, tinyBytesField]⟩

/-- A service shaped like the claim's example: `supported_negative_response =
[ConditionsNotCorrect]` and a subfunction byte in use. -/
def conditionsOnlyService : ServiceCls :=
  ⟨[ResponseCode.ConditionsNotCorrect], true⟩

example : iterPayloadFmt SimpleVariadicServiceData 0 =
    [[.tF64, .tInt true 2], [.tVarS, .tF32]] := by decide

example : variadicFieldsIndexes SimpleVariadicServiceData 0 = [1] := by decide

example : parameterNames AdvancedServiceData 0 = ["an_int"] := by decide

example : parameterNames AdvancedServiceData 1 = ["an_int", "a_float"] := by decide

example :
    pack ⟨SimpleVariadicServiceData, 0,
      [.vInt 42, .vBytes [1, 2, 3, 4, 5, 6], .vFloat ⟨157, 50⟩]⟩ =
    .ok (f64enc ⟨42, 1⟩ ++ [0, 6] ++ [1, 2, 3, 4, 5, 6] ++ f32enc ⟨157, 50⟩) := by decide

example : pack ⟨SimpleServiceData, 0, [.vInt 42, .vFloat ⟨157, 50⟩]⟩ =
    .ok (f64enc ⟨42, 1⟩ ++ f32enc ⟨157, 50⟩) := by decide

example : pack twoVarRec = .error .transcode := by decide

example : insertLengthsPy [(1, 0), (2, 1)] [.vBytes [1], .vBytes [2, 3]] =
    [.vInt 1, .vInt 2, .vBytes [1], .vBytes [2, 3]] := by decide

example : pack (defaultRec ResponseDataPost2006) = .error .transcode := by decide

example : pack variadicSubfunctionRec = .error .transcode := by decide

example : sdEq ⟨OnlySubfunctionOneData, 1, [.vInt 5]⟩
    ⟨OnlySubfunctionOneData, 1, [.vInt 6]⟩ = .ok true := by decide

example : getParameterItems ⟨OnlySubfunctionOneData, 1, [.vInt 5]⟩ 1 =
    .ok [("level", .vInt 5)] := by decide

example : unpack EmptyServiceData [1] 0 = .error .missingData := by decide

example : unpack EmptyServiceData [] 3 = .ok (defaultRec EmptyServiceData) := by decide

example : unpack SimpleServiceData [] 0 = .error .missingData := by decide

example :
    unpack SimpleVariadicServiceData
      (f64enc ⟨42, 1⟩ ++ [0, 6] ++ [1, 2, 3, 4, 5, 6] ++ f32enc ⟨157, 50⟩) 0 =
    .ok ⟨SimpleVariadicServiceData, 0,
      [.vFloat ⟨0, 1⟩, .vBytes [1, 2, 3, 4, 5, 6], .vFloat ⟨0, 1⟩]⟩ := by decide

example : isSupportedNegativeResponse conditionsOnlyService 0x7F = true := by decide

example : isSupportedNegativeResponse conditionsOnlyService 0x75 = false := by decide

/-! ### C8 — filtering correctness -/

/-- The spec's wording of field applicability: the declared subfunction set is
empty or contains the subfunction. -/
def specApplicable (f : UdsField) (subfunction : Nat) : Prop :=
  f.subfunctions = [] ∨ subfunction ∈ f.subfunctions

instance (f : UdsField) (subfunction : Nat) : Decidable (specApplicable f subfunction) := by
  unfold specApplicable
  infer_instance

theorem supports_subfonction_iff (f : UdsField) (n : Nat) :
    f.supports_subfonction n = true ↔ specApplicable f n := by
  simp [UdsField.supports_subfonction, specApplicable, List.isEmpty_iff,
    List.elem_iff]

/-- C8: for every record type and subfunction, `get_parameter_names` returns
exactly the names of the fields whose `applicable_subfunctions` set is empty
or contains the subfunction, in declaration order; and a field's
`supports_subfonction(n)` is true iff its set is empty or contains `n`. -/
theorem parameter_names_filtering_correct (cls : ServiceDataCls) (sf : Nat) :
    parameterNames cls sf =
      ((cls.fields.filter (fun f => decide (specApplicable f sf))).map UdsField.name)
    ∧ ∀ (f : UdsField) (n : Nat),
        f.supports_subfonction n = true ↔ specApplicable f n := by
  constructor
  · unfold parameterNames applicableFields
    congr 1
    apply List.filter_congr
    intro f _
    rw [Bool.eq_iff_iff, supports_subfonction_iff, decide_eq_true_iff]
  · exact supports_subfonction_iff

/-! ### C3 — negative-response validation table -/

/-- C3 counterexample: contrary to the claim's table, code `0x7F` *is*
reported as supported for a service declaring only `ConditionsNotCorrect`,
because `ServiceNotSupportedInActiveSession` (`0x7F` in ISO 14229 Annex A) is
a member of `always_valid_negative_response`. -/
theorem negative_response_0x7F_supported :
    isSupportedNegativeResponse conditionsOnlyService 0x7F = true := by decide

/-- C3 amended: for a service with `supported = [ConditionsNotCorrect]` and a
subfunction byte, `is_supported_negative_response` returns true for `0x22`
(declared), `0x10` (always-valid), `0x90` (reserved range with
`ConditionsNotCorrect` declared), true for `0x7F` (it is
`ServiceNotSupportedInActiveSession`, an always-valid code), true for
`SubFunctionNotSupportedInActiveSession` (`0x7E`, subfunction in use), and
false for a code outside all four rules such as `0x75`. -/
theorem negative_response_table_amended :
    isSupportedNegativeResponse conditionsOnlyService 0x22 = true
    ∧ isSupportedNegativeResponse conditionsOnlyService 0x10 = true
    ∧ isSupportedNegativeResponse conditionsOnlyService 0x90 = true
    ∧ isSupportedNegativeResponse conditionsOnlyService 0x7F = true
    ∧ isSupportedNegativeResponse conditionsOnlyService
        ResponseCode.SubFunctionNotSupportedInActiveSession = true
    ∧ isSupportedNegativeResponse conditionsOnlyService 0x75 = false := by decide

/-! ### C1 — the round-trip property fails on a two-variadic record -/

/-- C1: the universal round-trip `unpack(pack(x), sf) == x` fails already at
`pack` for a record declaring two variable-length fields with perfectly valid
`bytes` values: the insertion loop places the second length at a stale
position, so `struct.pack` meets an `int` where the `1s` slot expects
`bytes` and raises `struct.error`, producing no bytes to unpack. -/
theorem roundtrip_fails_on_two_variadic_fields :
    pack twoVarRec = .error .transcode := by decide

/-! ### C2 — length insertion uses stale positions -/

/-- C2: with two variable-length fields the insertion loop does *not* place
each length immediately before its field's value.  For values `b"\x07"` and
`b"\x08\x09"` (lengths 1 and 2 at applicable positions 0 and 1) the loop
yields `[1, 2, b"\x07", b"\x08\x09"]`, which differs from the
immediately-before arrangement `[1, b"\x07", 2, b"\x08\x09"]` described by
the spec, and `pack` on such a record
fails with `struct.error` instead of concatenating chunk encodings. -/
theorem insert_lengths_not_immediately_before :
    insertLengthsPy [(1, 0), (2, 1)] [.vBytes [7], .vBytes [8, 9]] =
      [.vInt 1, .vInt 2, .vBytes [7], .vBytes [8, 9]]
    ∧ ([UdsVal.vInt 1, .vInt 2, .vBytes [7], .vBytes [8, 9]] ≠
        [UdsVal.vInt 1, .vBytes [7], .vInt 2, .vBytes [8, 9]])
    ∧ pack ⟨TwoVariadicServiceData, 0, [.vBytes [7], .vBytes [8, 9]]⟩ =
        .error .transcode := by decide

/-! ### C7 — resolution scaling on integer-format fields -/

/-- C7: packing a field declared with an integer format token and a non-unit
resolution fails instead of round-tripping.  `ResponseDataPost2006` (the
repository's own DiagnosticSessionControl response record, fields `"H"` with
resolutions `.001`/`.01`) cannot pack even its default values: the scaled
value `100.0 * 1000.0` is a `float`, which `struct` rejects for format `H`
with `struct.error`. -/
theorem resolution_breaks_integer_format_pack :
    pack (defaultRec ResponseDataPost2006) = .error .transcode := by decide

/-! ### C10 — pack is read-only on its receiver -/

/-- C10: `pack` leaves its receiver unchanged.  `packSt` is the translation
of the method body with the receiver threaded as explicit state; it returns
the packed result together with the untouched record, and agrees with the
pure `pack` on the result. -/
theorem pack_reads_only_receiver (r : SDRec) : packSt r = (pack r, r) := by
  unfold packSt pack
  dsimp only
  split
  · rfl
  · split
    · rfl
    · split
      · rfl
      · split
        · rfl
        · split
          · rfl
          · rfl

/-! ### Equality helpers shared by the C4 and C9 statements -/

theorem sdEq_eval (r1 r2 : SDRec) (l1 l2 : List (String × UdsVal))
    (h1 : getParameterItems r1 0 = .ok l1) (h2 : getParameterItems r2 0 = .ok l2) :
    sdEq r1 r2 = .ok ((l1.zip l2).all (fun p => itemEq p.1 p.2)) := by
  unfold sdEq getParameterItems at *
  cases hs1 : scaleList (applicablePairs r1 0) with
  | error e => rw [hs1] at h1; exact absurd h1 (by simp)
  | ok vs1 =>
      cases hs2 : scaleList (applicablePairs r2 0) with
      | error e => rw [hs2] at h2; exact absurd h2 (by simp)
      | ok vs2 =>
          rw [hs1] at h1
          rw [hs2] at h2
          simp only [Except.ok.injEq] at h1 h2
          subst h1
          subst h2
          rfl

theorem zip_all_itemEq_iff (l1 l2 : List (String × UdsVal)) :
    ((l1.zip l2).all (fun p => itemEq p.1 p.2)) = true ↔
      ∀ (i : Nat) (hi1 : i < l1.length) (hi2 : i < l2.length),
        itemEq (l1.get ⟨i, hi1⟩) (l2.get ⟨i, hi2⟩) = true := by
  induction l1 generalizing l2 with
  | nil =>
      simp [List.zip]
  | cons a t1 ih =>
      cases l2 with
      | nil => simp [List.zip]
      | cons b t2 =>
          simp only [List.zip_cons_cons, List.all_cons, Bool.and_eq_true]
          constructor
          · rintro ⟨hab, hrest⟩ i hi1 hi2
            cases i with
            | zero => exact hab
            | succ j =>
                exact (ih t2).mp hrest j (Nat.lt_of_succ_lt_succ hi1)
                  (Nat.lt_of_succ_lt_succ hi2)
          · intro h
            refine ⟨h 0 (Nat.succ_pos _) (Nat.succ_pos _), (ih t2).mpr ?_⟩
            intro j hj1 hj2
            exact h (j + 1) (Nat.succ_lt_succ hj1) (Nat.succ_lt_succ hj2)

/-! ### C4 — record equality -/

/-- C4 counterexample: two records of the same type whose only field applies
solely to subfunction 1, both carrying `subfunction = 1` but different values,
compare equal — `__eq__` builds both item sequences with the *default*
subfunction `0`, not each record's own subfunction, so the differing field is
ignored even though it is applicable to the records' own subfunction. -/
theorem record_eq_ignores_own_subfunction :
    sdEq ⟨OnlySubfunctionOneData, 1, [.vInt 5]⟩ ⟨OnlySubfunctionOneData, 1, [.vInt 6]⟩ =
      .ok true
    ∧ getParameterItems ⟨OnlySubfunctionOneData, 1, [.vInt 5]⟩ 1 ≠
        getParameterItems ⟨OnlySubfunctionOneData, 1, [.vInt 6]⟩ 1 := by decide

/-- C4 amended: two records compare equal iff the truncating pairwise zip of
their scaled parameter item sequences — both computed for the *default*
subfunction `0`, not each record's own subfunction — agrees at every shared
index (so a length mismatch beyond the shared prefix is ignored). -/
theorem record_eq_iff_default_subfunction_items (r1 r2 : SDRec)
    (l1 l2 : List (String × UdsVal))
    (h1 : getParameterItems r1 0 = .ok l1) (h2 : getParameterItems r2 0 = .ok l2) :
    sdEq r1 r2 = .ok true ↔
      ∀ (i : Nat) (hi1 : i < l1.length) (hi2 : i < l2.length),
        itemEq (l1.get ⟨i, hi1⟩) (l2.get ⟨i, hi2⟩) = true := by
  rw [sdEq_eval r1 r2 l1 l2 h1 h2]
  simp only [Except.ok.injEq]
  exact zip_all_itemEq_iff l1 l2

/-- C4 witness: the amended equivalence applied to two concrete
`SimpleServiceData` instances with equal items. -/
theorem record_eq_iff_default_subfunction_items_witness :
    sdEq ⟨SimpleServiceData, 0, [.vInt 1, .vFloat ⟨1, 8⟩]⟩
      ⟨SimpleServiceData, 0, [.vInt 1, .vFloat ⟨2, 16⟩]⟩ = .ok true :=
  (record_eq_iff_default_subfunction_items
    ⟨SimpleServiceData, 0, [.vInt 1, .vFloat ⟨1, 8⟩]⟩
    ⟨SimpleServiceData, 0, [.vInt 1, .vFloat ⟨2, 16⟩]⟩
    [("an_int", .vInt 1), ("a_float", .vFloat ⟨1, 8⟩)]
    [("an_int", .vInt 1), ("a_float", .vFloat ⟨2, 16⟩)]
    (by decide) (by decide)).mpr (by decide)

/-! ### C9 — truncating-zip equality collapses on prefixes -/

/-- C9: because `__eq__` compares with a truncating `zip`, a record whose
applicable parameter sequence for the default subfunction is empty compares
equal to every record, and more generally two records compare equal whenever
their item sequences agree on every shared index (the shorter matching a
prefix of the longer). -/
theorem empty_or_prefix_items_compare_equal (r1 r2 : SDRec)
    (l1 l2 : List (String × UdsVal))
    (h1 : getParameterItems r1 0 = .ok l1) (h2 : getParameterItems r2 0 = .ok l2) :
    (l1 = [] → sdEq r1 r2 = .ok true)
    ∧ ((∀ (i : Nat) (hi1 : i < l1.length) (hi2 : i < l2.length),
          itemEq (l1.get ⟨i, hi1⟩) (l2.get ⟨i, hi2⟩) = true) →
        sdEq r1 r2 = .ok true) := by
  constructor
  · intro hnil
    rw [sdEq_eval r1 r2 l1 l2 h1 h2, hnil]
    rfl
  · intro hpt
    rw [sdEq_eval r1 r2 l1 l2 h1 h2]
    rw [(zip_all_itemEq_iff l1 l2).mpr hpt]

/-- C9 witness: a bare `ServiceData`/`EmptyServiceData` instance (no
parameters at all) compares equal to a fully populated `SimpleServiceData`
instance. -/
theorem empty_record_equals_any_witness :
    sdEq ⟨EmptyServiceData, 0, []⟩ ⟨SimpleServiceData, 0, [.vInt 7, .vFloat ⟨3, 4⟩]⟩ =
      .ok true :=
  (empty_or_prefix_items_compare_equal ⟨EmptyServiceData, 0, []⟩
    ⟨SimpleServiceData, 0, [.vInt 7, .vFloat ⟨3, 4⟩]⟩ []
    [("an_int", .vInt 7), ("a_float", .vFloat ⟨3, 4⟩)]
    (by decide) (by decide)).1 rfl

/-! ### C5 — the missing-data guards of `unpack`

The decode paths below the two guards can only fail with `struct.error`,
`TypeError` or `IndexError`, never with the missing-data `ValueError`; the
following lemmas make that precise. -/

theorem pyMul_ne_missing (v : UdsVal) (n : PyNum) :
    pyMul v n ≠ .error .missingData := by
  cases v <;> cases n <;> simp [pyMul]

theorem structUnpack_ne_missing (fmt : List FmtTok) (bs : List Nat) :
    structUnpack fmt bs ≠ .error .missingData := by
  induction fmt generalizing bs with
  | nil => cases bs <;> simp [structUnpack]
  | cons t ts ih =>
      unfold structUnpack
      split
      · simp
      · split
        · split
          · next e h =>
              intro hc
              injection hc with he
              exact ih _ (he ▸ h)
          · simp
        · simp

theorem formatFmt_ne_missing (fmt : List FmtTok) (ns : List Nat) :
    formatFmt fmt ns ≠ .error .missingData := by
  induction fmt generalizing ns with
  | nil => simp [formatFmt]
  | cons t rest ih =>
      simp only [formatFmt]
      split
      · cases ns with
        | nil => simp
        | cons n ns2 =>
            cases h : formatFmt rest ns2 with
            | error e =>
                simp only [h]
                intro hc
                injection hc with he
                exact ih _ (he ▸ h)
            | ok l => simp [h]
      · cases h : formatFmt rest ns with
        | error e =>
            simp only [h]
            intro hc
            injection hc with he
            exact ih _ (he ▸ h)
        | ok l => simp [h]

theorem kwargsOf_ne_missing (ks : List String) (vs : List UdsVal) (ress : List PyNum) :
    kwargsOf ks vs ress ≠ .error .missingData := by
  induction ks generalizing vs ress with
  | nil => simp [kwargsOf]
  | cons k ks ih =>
      cases vs with
      | nil => simp [kwargsOf]
      | cons v vs =>
          cases ress with
          | nil => simp [kwargsOf]
          | cons res ress =>
              unfold kwargsOf
              split
              · next e h =>
                  intro hc
                  injection hc with he
                  exact pyMul_ne_missing _ _ (he ▸ h)
              · split
                · next e h =>
                    intro hc
                    injection hc with he
                    exact ih _ _ (he ▸ h)
                · simp

theorem buildRec_ne_missing (cls : ServiceDataCls) (sf : Nat) (args : List UdsVal) :
    buildRec cls sf args ≠ .error .missingData := by
  unfold buildRec
  split
  · next e h =>
      intro hc
      injection hc with he
      exact kwargsOf_ne_missing _ _ _ (he ▸ h)
  · simp

theorem unpackLoop_ne_missing (pairs : List (List FmtTok × Nat)) (data : List Nat)
    (start stop : Nat) (args : List UdsVal) :
    unpackLoop data pairs start stop args ≠ .error .missingData := by
  induction pairs generalizing start stop args with
  | nil => simp [unpackLoop]
  | cons p rest ih =>
      obtain ⟨fmt, size⟩ := p
      cases hl : args.getLast? with
      | none =>
          simp only [unpackLoop, hl]
          cases h : structUnpack fmt ((data.drop start).take (stop + size - start)) with
          | error e =>
              simp only [h]
              intro hc
              injection hc with he
              exact structUnpack_ne_missing _ _ (he ▸ h)
          | ok vs =>
              simp only [h]
              exact ih _ _ _
      | some v =>
          cases v with
          | vInt i =>
              simp only [unpackLoop, hl]
              split
              · simp
              · cases h : formatFmt fmt [i.toNat] with
                | error e =>
                    simp only [h]
                    intro hc
                    injection hc with he
                    exact formatFmt_ne_missing _ _ (he ▸ h)
                | ok fmt2 =>
                    simp only [h]
                    cases h2 : structUnpack fmt2
                        ((data.drop start).take (stop + i.toNat + size - start)) with
                    | error e =>
                        simp only [h2]
                        intro hc
                        injection hc with he
                        exact structUnpack_ne_missing _ _ (he ▸ h2)
                    | ok vs =>
                        simp only [h2]
                        exact ih _ _ _
          | vFloat q => simp [unpackLoop, hl]
          | vBytes bs => simp [unpackLoop, hl]

/-- C5: `unpack` fails with the missing-data `ValueError` in exactly two
situations — no applicable parameters but non-empty data, or applicable
parameters but an empty buffer — and with no parameters and no data it
returns the default-constructed record. -/
theorem unpack_missing_data_exactly_two_cases (cls : ServiceDataCls)
    (data : List Nat) (sf : Nat) :
    (unpack cls data sf = .error .missingData ↔
      ((parameterNames cls sf = [] ∧ data ≠ []) ∨
        (parameterNames cls sf ≠ [] ∧ data = [])))
    ∧ (parameterNames cls sf = [] → data = [] →
        unpack cls data sf = .ok (defaultRec cls)) := by
  unfold unpack
  dsimp only
  by_cases hn : parameterNames cls sf = []
  · by_cases hd : data = []
    · simp [hn, hd]
    · simp [hn, hd, List.isEmpty_iff]
  · by_cases hd : data = []
    · simp [hn, hd, List.isEmpty_iff]
    · have hbody :
          (match iterPayloadFmt cls sf with
            | [fmt] =>
                match structUnpack fmt data with
                | .error e => .error e
                | .ok args => buildRec cls sf args
            | _ =>
                match unpackLoop data (fmtSizePairs cls) 0 0 [] with
                | .error e => .error e
                | .ok args => buildRec cls sf args) ≠
            (Except.error UdsErr.missingData : Except UdsErr SDRec) := by
        split
        · split
          · next e h =>
              intro hc
              injection hc with he
              exact structUnpack_ne_missing _ _ (he ▸ h)
          · exact buildRec_ne_missing _ _ _
        · split
          · next e h =>
              intro hc
              injection hc with he
              exact unpackLoop_ne_missing _ _ _ _ _ (he ▸ h)
          · exact buildRec_ne_missing _ _ _
      simp [hn, hd, List.isEmpty_iff, hbody]

/-- C5 witness: concrete instances of all three behaviours, obtained from the
theorem itself. -/
theorem unpack_missing_data_witness :
    unpack EmptyServiceData [1] 0 = .error .missingData
    ∧ unpack SimpleServiceData [] 0 = .error .missingData
    ∧ unpack EmptyServiceData [] 5 = .ok (defaultRec EmptyServiceData) :=
  ⟨(unpack_missing_data_exactly_two_cases EmptyServiceData [1] 0).1.mpr
      (Or.inl ⟨by decide, by decide⟩),
    (unpack_missing_data_exactly_two_cases SimpleServiceData [] 0).1.mpr
      (Or.inr ⟨by decide, rfl⟩),
    (unpack_missing_data_exactly_two_cases EmptyServiceData [] 5).2 (by decide) rfl⟩

/-! ### C6 — layout helpers for the variadic byte block -/

theorem beBytes_length (k v : Nat) : (beBytes k v).length = k := by
  induction k generalizing v with
  | zero => rfl
  | succ k ih => simp [beBytes, ih]

theorem padTrunc_length (n : Nat) (bs : List Nat) : (padTrunc n bs).length = n := by
  simp only [padTrunc, List.length_append, List.length_take, List.length_replicate]
  omega

theorem padTrunc_self (bs : List Nat) : padTrunc bs.length bs = bs := by
  simp [padTrunc]

theorem encTok_ok_length (t : FmtTok) (v : UdsVal) (b : List Nat)
    (h : encTok t v = .ok b) : b.length = tokSize t := by
  cases t with
  | tInt s k =>
      cases v with
      | vInt i =>
          simp only [encTok] at h
          split at h
          · injection h with h2
            rw [← h2, beBytes_length]
            rfl
          · exact absurd h (by simp)
      | vFloat q => simp [encTok] at h
      | vBytes l => simp [encTok] at h
  | tF32 =>
      cases v with
      | vInt i =>
          simp only [encTok, Except.ok.injEq] at h
          simp [← h, f32enc, tokSize]
      | vFloat q =>
          simp only [encTok, Except.ok.injEq] at h
          simp [← h, f32enc, tokSize]
      | vBytes l => simp [encTok] at h
  | tF64 =>
      cases v with
      | vInt i =>
          simp only [encTok, Except.ok.injEq] at h
          simp [← h, f64enc, tokSize]
      | vFloat q =>
          simp only [encTok, Except.ok.injEq] at h
          simp [← h, f64enc, tokSize]
      | vBytes l => simp [encTok] at h
  | tS n =>
      cases v with
      | vInt i => simp [encTok] at h
      | vFloat q => simp [encTok] at h
      | vBytes l =>
          simp only [encTok, Except.ok.injEq] at h
          rw [← h, padTrunc_length]
          rfl
  | tVarS => cases v <;> simp [encTok] at h

theorem structPack_cons_ok (t : FmtTok) (ts : List FmtTok) (v : UdsVal)
    (vs : List UdsVal) (out : List Nat)
    (h : structPack (t :: ts) (v :: vs) = .ok out) :
    ∃ b rest, encTok t v = .ok b ∧ structPack ts vs = .ok rest ∧ out = b ++ rest := by
  unfold structPack at h
  cases he : encTok t v with
  | error e => rw [he] at h; exact absurd h (by simp)
  | ok b =>
      rw [he] at h
      cases hs : structPack ts vs with
      | error e => rw [hs] at h; exact absurd h (by simp)
      | ok rest =>
          rw [hs] at h
          injection h with h2
          exact ⟨b, rest, rfl, rfl, h2.symm⟩

theorem structPack_ok_length (ts : List FmtTok) (vs : List UdsVal) (out : List Nat)
    (h : structPack ts vs = .ok out) : out.length = chunkCalcSize ts := by
  induction ts generalizing vs out with
  | nil =>
      cases vs with
      | nil =>
          simp only [structPack, Except.ok.injEq] at h
          simp [← h, chunkCalcSize]
      | cons v vs => simp [structPack] at h
  | cons t ts ih =>
      cases vs with
      | nil => simp [structPack] at h
      | cons v vs =>
          obtain ⟨b, rest, he, hs, hout⟩ := structPack_cons_ok t ts v vs out h
          subst hout
          simp only [List.length_append, chunkCalcSize, List.map_cons, List.sum_cons]
          rw [encTok_ok_length t v b he]
          have := ih vs rest hs
          simp only [chunkCalcSize] at this
          omega

theorem structPack_append_ok (T1 : List FmtTok) (V1 : List UdsVal) (T2 : List FmtTok)
    (V2 : List UdsVal) (out : List Nat) (hlen : T1.length = V1.length)
    (h : structPack (T1 ++ T2) (V1 ++ V2) = .ok out) :
    ∃ b1 b2, structPack T1 V1 = .ok b1 ∧ structPack T2 V2 = .ok b2 ∧ out = b1 ++ b2 := by
  induction T1 generalizing V1 out with
  | nil =>
      cases V1 with
      | nil => exact ⟨[], out, rfl, h, rfl⟩
      | cons v vs => simp at hlen
  | cons t ts ih =>
      cases V1 with
      | nil => simp at hlen
      | cons v vs =>
          rw [List.cons_append, List.cons_append] at h
          obtain ⟨b, rest, he, hs, hout⟩ := structPack_cons_ok _ _ _ _ _ h
          obtain ⟨b1, b2, h1, h2, hr⟩ := ih vs rest (by simpa using hlen) hs
          refine ⟨b ++ b1, b2, ?_, h2, ?_⟩
          · unfold structPack
            rw [he, h1]
          · subst hout hr
            simp [List.append_assoc]

theorem scaleList_cons_ok (f : UdsField) (v : UdsVal) (P : List (UdsField × UdsVal))
    (vs : List UdsVal) (h : scaleList ((f, v) :: P) = .ok vs) :
    ∃ w ws, pyMul v f.scale_factor = .ok w ∧ scaleList P = .ok ws ∧ vs = w :: ws := by
  unfold scaleList at h
  cases hw : pyMul v f.scale_factor with
  | error e => rw [hw] at h; exact absurd h (by simp)
  | ok w =>
      rw [hw] at h
      cases hs : scaleList P with
      | error e => rw [hs] at h; exact absurd h (by simp)
      | ok ws =>
          rw [hs] at h
          injection h with h2
          exact ⟨w, ws, rfl, rfl, h2.symm⟩

theorem scaleList_append_ok (P Q : List (UdsField × UdsVal)) (vs : List UdsVal)
    (h : scaleList (P ++ Q) = .ok vs) :
    ∃ v1 v2, scaleList P = .ok v1 ∧ scaleList Q = .ok v2 ∧ vs = v1 ++ v2 ∧
      v1.length = P.length := by
  induction P generalizing vs with
  | nil => exact ⟨[], vs, rfl, h, rfl, rfl⟩
  | cons p P ih =>
      obtain ⟨f, v⟩ := p
      rw [List.cons_append] at h
      obtain ⟨w, ws, hw, hs, hvs⟩ := scaleList_cons_ok _ _ _ _ h
      obtain ⟨v1, v2, h1, h2, hv, hl⟩ := ih ws hs
      refine ⟨w :: v1, v2, ?_, h2, ?_, by simp [hl]⟩
      · unfold scaleList
        rw [hw, h1]
      · subst hvs hv
        rfl

/-- A `bytes` value is unchanged by its field's scale factor whenever the
multiplication succeeds (`scale_factor` is the exact `int` 1 when the
resolution is 1, and `bytes * float` fails). -/
theorem bytes_scale_id (f : UdsField) (bs : List Nat) (w : UdsVal)
    (h : pyMul (.vBytes bs) f.scale_factor = .ok w) : w = .vBytes bs := by
  unfold UdsField.scale_factor at h
  split at h
  · simp only [pyMul, Except.ok.injEq] at h
    rw [← h]
    simp [repBytes, List.replicate]
  · simp [pyMul] at h

theorem splitOnVar_varfree (A : List FmtTok) (h : ∀ t ∈ A, isVarTok t = false) :
    splitOnVar A = [A] := by
  induction A with
  | nil => rfl
  | cons t ts ih =>
      have ht : isVarTok t = false := h t (by simp)
      have hne : t ≠ FmtTok.tVarS := by
        intro he
        subst he
        simp [isVarTok] at ht
      unfold splitOnVar
      rw [if_neg hne, ih (fun x hx => h x (by simp [hx]))]

theorem splitOnVar_one_var (A B : List FmtTok) (hA : ∀ t ∈ A, isVarTok t = false)
    (hB : ∀ t ∈ B, isVarTok t = false) :
    splitOnVar (A ++ FmtTok.tVarS :: B) = [A, FmtTok.tVarS :: B] := by
  induction A with
  | nil =>
      rw [List.nil_append]
      unfold splitOnVar
      rw [if_pos rfl, splitOnVar_varfree B hB]
  | cons t ts ih =>
      have ht : isVarTok t = false := hA t (by simp)
      have hne : t ≠ FmtTok.tVarS := by
        intro he
        subst he
        simp [isVarTok] at ht
      rw [List.cons_append]
      unfold splitOnVar
      rw [if_neg hne, ih (fun x hx => hA x (by simp [hx]))]

theorem formatFmt_varfree (A : List FmtTok) (ns : List Nat)
    (h : ∀ t ∈ A, isVarTok t = false) : formatFmt A ns = .ok A := by
  induction A generalizing ns with
  | nil => rfl
  | cons t ts ih =>
      have ht : isVarTok t = false := h t (by simp)
      have hne : t ≠ FmtTok.tVarS := by
        intro he
        subst he
        simp [isVarTok] at ht
      unfold formatFmt
      rw [if_neg hne, ih ns (fun x hx => h x (by simp [hx]))]

theorem formatFmt_one_var (A B : List FmtTok) (n : Nat)
    (hA : ∀ t ∈ A, isVarTok t = false) (hB : ∀ t ∈ B, isVarTok t = false) :
    formatFmt (A ++ FmtTok.tVarS :: B) [n] = .ok (A ++ FmtTok.tS n :: B) := by
  induction A with
  | nil =>
      rw [List.nil_append, List.nil_append]
      unfold formatFmt
      rw [if_pos rfl]
      dsimp only
      rw [formatFmt_varfree B [] hB]
  | cons t ts ih =>
      have ht : isVarTok t = false := hA t (by simp)
      have hne : t ≠ FmtTok.tVarS := by
        intro he
        subst he
        simp [isVarTok] at ht
      rw [List.cons_append, List.cons_append]
      unfold formatFmt
      rw [if_neg hne, ih (fun x hx => hA x (by simp [hx]))]

theorem pyInsert_at_length (x : UdsVal) (P Q : List UdsVal) :
    pyInsert x P.length (P ++ Q) = P ++ x :: Q := by
  induction P with
  | nil =>
      cases Q with
      | nil => rfl
      | cons q qs => rfl
  | cons p ps ih =>
      simp only [List.cons_append, List.length_cons, pyInsert, List.append_eq]
      rw [ih]

theorem flatMap_singleton_length (L : List UdsField)
    (h : ∀ f ∈ L, f.fmt.length = 1) :
    (L.flatMap UdsField.fmt).length = L.length := by
  induction L with
  | nil => rfl
  | cons f fs ih =>
      simp only [List.flatMap_cons, List.length_append, List.length_cons]
      rw [h f (by simp), ih (fun g hg => h g (by simp [hg]))]
      omega

theorem fmt_varfree_of_not_variable (f : UdsField) (h : f.has_variable_length = false) :
    ∀ t ∈ f.fmt, isVarTok t = false := by
  intro t ht
  unfold UdsField.has_variable_length at h
  rw [List.any_eq_false] at h
  simpa using h t ht

theorem flat_varfree (L : List UdsField) (h : ∀ f ∈ L, f.has_variable_length = false) :
    ∀ t ∈ L.flatMap UdsField.fmt, isVarTok t = false := by
  intro t ht
  obtain ⟨f, hf, htf⟩ := List.mem_flatMap.mp ht
  exact fmt_varfree_of_not_variable f (h f hf) t htf

theorem supports_of_empty_subfunctions (f : UdsField) (h : f.subfunctions = [])
    (n : Nat) : f.supports_subfonction n = true := by
  simp [UdsField.supports_subfonction, h]

theorem enumFrom_filter_novar (L : List UdsField) (n : Nat)
    (h : ∀ f ∈ L, f.has_variable_length = false) :
    (List.enumFrom n L).filter (fun p => p.2.has_variable_length) = [] := by
  induction L generalizing n with
  | nil => rfl
  | cons f fs ih =>
      simp only [List.enumFrom]
      rw [List.filter_cons_of_neg (by simp [h f (by simp)])]
      exact ih (n + 1) (fun g hg => h g (by simp [hg]))

theorem enumFrom_filter_one_var (pre post : List UdsField) (varF : UdsField) (n : Nat)
    (hpre : ∀ f ∈ pre, f.has_variable_length = false)
    (hpost : ∀ f ∈ post, f.has_variable_length = false)
    (hv : varF.has_variable_length = true) :
    ((List.enumFrom n (pre ++ varF :: post)).filter
      (fun p => p.2.has_variable_length)).map Prod.fst = [n + pre.length] := by
  induction pre generalizing n with
  | nil =>
      simp only [List.nil_append, List.enumFrom]
      rw [List.filter_cons_of_pos (by simp [hv]),
        enumFrom_filter_novar post (n + 1) hpost]
      simp
  | cons f fs ih =>
      simp only [List.cons_append, List.enumFrom]
      rw [List.filter_cons_of_neg (by simp [hpre f (by simp)])]
      simp only [List.append_eq]
      rw [ih (n + 1) (fun g hg => hpre g (by simp [hg]))]
      simp only [List.length_cons]
      congr 1
      omega

/-- Reduction of `pack` on the multi-chunk path, given the chunk list. -/
theorem pack_multi_eq (r : SDRec) (c1 c2 : List FmtTok) (cs : List (List FmtTok))
    (h : iterPayloadFmt r.cls r.subfunction = c1 :: c2 :: cs) :
    pack r =
      match scaleList (applicablePairs r r.subfunction) with
      | .error e => .error e
      | .ok args =>
          match lengthsOf args (variadicFieldsIndexes r.cls r.subfunction) with
          | .error e => .error e
          | .ok lengths =>
              match formatFmt (payloadFmt r.cls 0) lengths with
              | .error e => .error e
              | .ok fmt =>
                  structPack fmt
                    (insertLengthsPy
                      (lengths.zip (variadicFieldsIndexes r.cls r.subfunction)) args) := by
  unfold pack
  dsimp only
  rw [h]
  rfl

/-- Reduction of `pack` on the single-chunk path. -/
theorem pack_single_eq (r : SDRec) (c1 : List FmtTok)
    (h : iterPayloadFmt r.cls r.subfunction = [c1]) :
    pack r =
      match scaleList (applicablePairs r r.subfunction) with
      | .error e => .error e
      | .ok args => structPack c1 args := by
  unfold pack
  dsimp only
  rw [h]
  rfl

/-- Embedding of `struct.pack` of a 2-byte integer format applied to a length that fits in
15 bits: both the signed `h` and unsigned `H` variants accept it and emit the
big-endian image. -/
theorem encTok_len2 (sgn : Bool) (n : Nat) (h : n ≤ 32767) :
    encTok (.tInt sgn 2) (.vInt (n : Int)) = .ok (beBytes 2 n) := by
  have h0 : (0 : Int) ≤ (n : Int) := Int.natCast_nonneg n
  have hle : (n : Int) ≤ 32767 := by exact_mod_cast h
  have h16 : (n : Int) < (2 : Int) ^ (8 * 2) := by norm_num; omega
  have h15 : (n : Int) < (2 : Int) ^ (8 * 2 - 1) := by norm_num; omega
  have hr : intInRange sgn 2 (n : Int) = true := by
    cases sgn with
    | true =>
        simp only [intInRange, decide_eq_true_eq]
        refine ⟨?_, h15⟩
        have hp : (0 : Int) ≤ (2 : Int) ^ (8 * 2 - 1) := by positivity
        omega
    | false =>
        simp only [intInRange, decide_eq_true_eq]
        exact ⟨h0, h16⟩
  have ht : toTwos 2 (n : Int) = n := by
    unfold toTwos
    rw [Int.emod_eq_of_lt h0 h16]
    simp
  simp only [encTok]
  rw [if_pos hr, ht]

/-- Byte-level decomposition of `pack` for a record type with exactly one
variable-length field (2-byte length token) among subfunction-independent
single-token fields: the output of the variadic record is the output of the
corresponding variadic-free record with `length ++ payload` spliced in at the
variadic field's offset. -/
theorem pack_one_variadic_decomp
    (preF postF : List UdsField) (varF : UdsField) (sgn : Bool)
    (preV postV : List UdsVal) (bs : List Nat) (sf : Nat) (out outN : List Nat)
    (hpre1 : ∀ f ∈ preF, f.fmt.length = 1)
    (hpre2 : ∀ f ∈ preF, f.has_variable_length = false)
    (hpre3 : ∀ f ∈ preF, f.subfunctions = [])
    (hpost2 : ∀ f ∈ postF, f.has_variable_length = false)
    (hpost3 : ∀ f ∈ postF, f.subfunctions = [])
    (hvfmt : varF.fmt = [FmtTok.tInt sgn 2, FmtTok.tVarS])
    (hvsub : varF.subfunctions = [])
    (hlpre : preV.length = preF.length)
    (hn : bs.length ≤ 32767)
    (hpack : pack ⟨⟨preF ++ varF :: postF⟩, sf, preV ++ .vBytes bs :: postV⟩ = .ok out)
    (hpackN : pack ⟨⟨preF ++ postF⟩, sf, preV ++ postV⟩ = .ok outN) :
    ∃ b1 b3, outN = b1 ++ b3
      ∧ out = b1 ++ (beBytes 2 bs.length ++ (bs ++ b3))
      ∧ b1.length = chunkCalcSize (preF.flatMap UdsField.fmt) := by
  have hvvar : varF.has_variable_length = true := by
    simp [UdsField.has_variable_length, hvfmt, isVarTok]
  have hsupAll : ∀ s : Nat, ∀ f ∈ preF ++ varF :: postF,
      f.supports_subfonction s = true := by
    intro s f hf
    rcases List.mem_append.mp hf with hf | hf
    · exact supports_of_empty_subfunctions f (hpre3 f hf) s
    · rcases List.mem_cons.mp hf with rfl | hf
      · exact supports_of_empty_subfunctions f hvsub s
      · exact supports_of_empty_subfunctions f (hpost3 f hf) s
  have hsupAllN : ∀ s : Nat, ∀ f ∈ preF ++ postF, f.supports_subfonction s = true := by
    intro s f hf
    rcases List.mem_append.mp hf with hf | hf
    · exact supports_of_empty_subfunctions f (hpre3 f hf) s
    · exact supports_of_empty_subfunctions f (hpost3 f hf) s
  have happl : ∀ s : Nat,
      applicableFields ⟨preF ++ varF :: postF⟩ s = preF ++ varF :: postF :=
    fun s => List.filter_eq_self.mpr (fun f hf => hsupAll s f hf)
  have happlN : ∀ s : Nat, applicableFields ⟨preF ++ postF⟩ s = preF ++ postF :=
    fun s => List.filter_eq_self.mpr (fun f hf => hsupAllN s f hf)
  have hpayload : ∀ s : Nat, payloadFmt ⟨preF ++ varF :: postF⟩ s =
      preF.flatMap UdsField.fmt ++
        FmtTok.tInt sgn 2 :: FmtTok.tVarS :: postF.flatMap UdsField.fmt := by
    intro s
    unfold payloadFmt
    rw [happl s, List.flatMap_append, List.flatMap_cons, hvfmt]
    rfl
  have hpayloadN : ∀ s : Nat, payloadFmt ⟨preF ++ postF⟩ s =
      preF.flatMap UdsField.fmt ++ postF.flatMap UdsField.fmt := by
    intro s
    unfold payloadFmt
    rw [happlN s, List.flatMap_append]
  have hfreePre := flat_varfree preF hpre2
  have hfreePost := flat_varfree postF hpost2
  have hfreeA : ∀ t ∈ preF.flatMap UdsField.fmt ++ [FmtTok.tInt sgn 2],
      isVarTok t = false := by
    intro t ht
    rcases List.mem_append.mp ht with ht | ht
    · exact hfreePre t ht
    · simp only [List.mem_singleton] at ht
      subst ht
      rfl
  have hassoc : preF.flatMap UdsField.fmt ++
        FmtTok.tInt sgn 2 :: FmtTok.tVarS :: postF.flatMap UdsField.fmt =
      (preF.flatMap UdsField.fmt ++ [FmtTok.tInt sgn 2]) ++
        FmtTok.tVarS :: postF.flatMap UdsField.fmt := by
    simp
  have hchunks : iterPayloadFmt ⟨preF ++ varF :: postF⟩ sf =
      [preF.flatMap UdsField.fmt ++ [FmtTok.tInt sgn 2],
        FmtTok.tVarS :: postF.flatMap UdsField.fmt] := by
    unfold iterPayloadFmt
    rw [hpayload sf, hassoc]
    exact splitOnVar_one_var _ _ hfreeA hfreePost
  have hchunksN : iterPayloadFmt ⟨preF ++ postF⟩ sf =
      [preF.flatMap UdsField.fmt ++ postF.flatMap UdsField.fmt] := by
    unfold iterPayloadFmt
    rw [hpayloadN sf]
    refine splitOnVar_varfree _ ?_
    intro t ht
    rcases List.mem_append.mp ht with ht | ht
    · exact hfreePre t ht
    · exact hfreePost t ht
  -- the variadic-record side
  rw [pack_multi_eq _ _ _ _ hchunks] at hpack
  dsimp only at hpack
  have hzip : (preF ++ varF :: postF).zip (preV ++ UdsVal.vBytes bs :: postV) =
      preF.zip preV ++ (varF, UdsVal.vBytes bs) :: postF.zip postV := by
    rw [List.zip_append hlpre.symm]
    rfl
  have hpairs : applicablePairs
      ⟨⟨preF ++ varF :: postF⟩, sf, preV ++ UdsVal.vBytes bs :: postV⟩ sf =
      preF.zip preV ++ (varF, UdsVal.vBytes bs) :: postF.zip postV := by
    unfold applicablePairs
    dsimp only
    rw [hzip]
    refine List.filter_eq_self.mpr ?_
    intro p hp
    rcases List.mem_append.mp hp with hp | hp
    · exact supports_of_empty_subfunctions p.1 (hpre3 p.1 (List.of_mem_zip hp).1) sf
    · rcases List.mem_cons.mp hp with rfl | hp
      · exact supports_of_empty_subfunctions varF hvsub sf
      · exact supports_of_empty_subfunctions p.1 (hpost3 p.1 (List.of_mem_zip hp).1) sf
  rw [hpairs] at hpack
  cases hsc : scaleList (preF.zip preV ++ (varF, UdsVal.vBytes bs) :: postF.zip postV) with
  | error e =>
      rw [hsc] at hpack
      exact absurd hpack (by simp)
  | ok args =>
  rw [hsc] at hpack
  dsimp only at hpack
  obtain ⟨argsPre, args2, hsPre, hs2, hargs, hlenPre⟩ := scaleList_append_ok _ _ _ hsc
  obtain ⟨w, argsPost, hw, hsPost, hargs2⟩ := scaleList_cons_ok _ _ _ _ hs2
  have hwv : w = .vBytes bs := bytes_scale_id varF bs w hw
  subst hwv
  subst hargs2
  subst hargs
  have hlenPre2 : argsPre.length = preF.length := by
    rw [hlenPre, List.length_zip, hlpre]
    exact Nat.min_self _
  have hvidx : variadicFieldsIndexes ⟨preF ++ varF :: postF⟩ sf = [preF.length] := by
    unfold variadicFieldsIndexes
    rw [happl sf]
    show ((List.enumFrom 0 (preF ++ varF :: postF)).filter
      (fun p => p.2.has_variable_length)).map Prod.fst = [preF.length]
    rw [enumFrom_filter_one_var preF postF varF 0 hpre2 hpost2 hvvar]
    simp
  rw [hvidx] at hpack
  have hget : (argsPre ++ UdsVal.vBytes bs :: argsPost).get? preF.length =
      some (UdsVal.vBytes bs) := by
    rw [← hlenPre2, List.get?_append_right (le_refl _)]
    simp
  have hlenOf : lengthsOf (argsPre ++ UdsVal.vBytes bs :: argsPost) [preF.length] =
      .ok [bs.length] := by
    unfold lengthsOf
    rw [hget]
    rfl
  rw [hlenOf] at hpack
  dsimp only at hpack
  have hfmtd : formatFmt (payloadFmt ⟨preF ++ varF :: postF⟩ 0) [bs.length] =
      .ok (preF.flatMap UdsField.fmt ++
        FmtTok.tInt sgn 2 :: FmtTok.tS bs.length :: postF.flatMap UdsField.fmt) := by
    rw [hpayload 0, hassoc, formatFmt_one_var _ _ _ hfreeA hfreePost]
    simp
  rw [hfmtd] at hpack
  dsimp only at hpack
  have hins : insertLengthsPy ([bs.length].zip [preF.length])
      (argsPre ++ UdsVal.vBytes bs :: argsPost) =
      argsPre ++ UdsVal.vInt bs.length :: UdsVal.vBytes bs :: argsPost := by
    show pyInsert (UdsVal.vInt bs.length) preF.length
        (argsPre ++ UdsVal.vBytes bs :: argsPost) = _
    rw [← hlenPre2]
    exact pyInsert_at_length _ _ _
  rw [hins] at hpack
  have hflatlen : (preF.flatMap UdsField.fmt).length = argsPre.length := by
    rw [flatMap_singleton_length preF hpre1, hlenPre2]
  obtain ⟨b1, brest, hb1, hbrest, hout⟩ :=
    structPack_append_ok _ _ _ _ _ hflatlen hpack
  obtain ⟨bInt, brest2, hInt, hbrest2, hbr⟩ := structPack_cons_ok _ _ _ _ _ hbrest
  obtain ⟨bS, b3, hS, hb3, hbr2⟩ := structPack_cons_ok _ _ _ _ _ hbrest2
  have hIntv : bInt = beBytes 2 bs.length := by
    rw [encTok_len2 sgn bs.length hn] at hInt
    injection hInt with h2
    exact h2.symm
  have hSv : bS = bs := by
    have hst : encTok (.tS bs.length) (.vBytes bs) = .ok bs := by
      simp only [encTok]
      rw [padTrunc_self]
    rw [hst] at hS
    injection hS with h2
    exact h2.symm
  -- the variadic-free record side
  rw [pack_single_eq _ _ hchunksN] at hpackN
  dsimp only at hpackN
  have hzipN : (preF ++ postF).zip (preV ++ postV) =
      preF.zip preV ++ postF.zip postV := List.zip_append hlpre.symm
  have hpairsN : applicablePairs ⟨⟨preF ++ postF⟩, sf, preV ++ postV⟩ sf =
      preF.zip preV ++ postF.zip postV := by
    unfold applicablePairs
    dsimp only
    rw [hzipN]
    refine List.filter_eq_self.mpr ?_
    intro p hp
    rcases List.mem_append.mp hp with hp | hp
    · exact supports_of_empty_subfunctions p.1 (hpre3 p.1 (List.of_mem_zip hp).1) sf
    · exact supports_of_empty_subfunctions p.1 (hpost3 p.1 (List.of_mem_zip hp).1) sf
  rw [hpairsN] at hpackN
  cases hscN : scaleList (preF.zip preV ++ postF.zip postV) with
  | error e =>
      rw [hscN] at hpackN
      exact absurd hpackN (by simp)
  | ok argsN =>
  rw [hscN] at hpackN
  dsimp only at hpackN
  obtain ⟨argsPreN, argsPostN, hsPreN, hsPostN, hargsN, hlenPreN⟩ :=
    scaleList_append_ok _ _ _ hscN
  rw [hsPre] at hsPreN
  injection hsPreN with he1
  rw [hsPost] at hsPostN
  injection hsPostN with he2
  subst he1
  subst he2
  subst hargsN
  obtain ⟨b1n, b3n, hb1n, hb3n, houtN⟩ :=
    structPack_append_ok _ _ _ _ _ hflatlen hpackN
  rw [hb1] at hb1n
  injection hb1n with hbe1
  rw [hb3] at hb3n
  injection hb3n with hbe3
  subst hbe1
  subst hbe3
  refine ⟨b1, b3, houtN, ?_, ?_⟩
  · rw [hout, hbr, hbr2, hIntv, hSv]
  · rw [structPack_ok_length _ _ _ hb1]

/-- C6 amended: for a record whose fields are subfunction-independent, with
exactly one variable-length field (declared with a 2-byte length token, as in
every variadic declaration of this repository) holding `n ≤ 32767` bytes, and
whose values pack successfully, `len(pack(x)) = len(pack(x with empty
variable field)) + n`; the `n` payload bytes are immediately preceded by the
2-byte big-endian image of `n` at the variadic field's offset; and the total
exceeds the corresponding variadic-free record's output by `n + 2`. -/
theorem variadic_length_correct
    (preF postF : List UdsField) (varF : UdsField) (sgn : Bool)
    (preV postV : List UdsVal) (bs : List Nat) (sf : Nat)
    (out out0 outN : List Nat)
    (hpre1 : ∀ f ∈ preF, f.fmt.length = 1)
    (hpre2 : ∀ f ∈ preF, f.has_variable_length = false)
    (hpre3 : ∀ f ∈ preF, f.subfunctions = [])
    (hpost2 : ∀ f ∈ postF, f.has_variable_length = false)
    (hpost3 : ∀ f ∈ postF, f.subfunctions = [])
    (hvfmt : varF.fmt = [FmtTok.tInt sgn 2, FmtTok.tVarS])
    (hvsub : varF.subfunctions = [])
    (hlpre : preV.length = preF.length)
    (hn : bs.length ≤ 32767)
    (hpack : pack ⟨⟨preF ++ varF :: postF⟩, sf, preV ++ .vBytes bs :: postV⟩ = .ok out)
    (hpack0 : pack ⟨⟨preF ++ varF :: postF⟩, sf, preV ++ .vBytes [] :: postV⟩ = .ok out0)
    (hpackN : pack ⟨⟨preF ++ postF⟩, sf, preV ++ postV⟩ = .ok outN) :
    out.length = out0.length + bs.length
    ∧ out.length = outN.length + bs.length + 2
    ∧ out.drop (chunkCalcSize (preF.flatMap UdsField.fmt)) =
        beBytes 2 bs.length ++ bs ++ outN.drop (chunkCalcSize (preF.flatMap UdsField.fmt)) := by
  obtain ⟨b1, b3, houtN, hout, hlen1⟩ :=
    pack_one_variadic_decomp preF postF varF sgn preV postV bs sf out outN
      hpre1 hpre2 hpre3 hpost2 hpost3 hvfmt hvsub hlpre hn hpack hpackN
  obtain ⟨c1, c3, houtN2, hout0, hlen2⟩ :=
    pack_one_variadic_decomp preF postF varF sgn preV postV [] sf out0 outN
      hpre1 hpre2 hpre3 hpost2 hpost3 hvfmt hvsub hlpre (by simp) hpack0 hpackN
  have hl : b1.length = c1.length := by rw [hlen1, hlen2]
  obtain ⟨hb, hc⟩ := List.append_inj (houtN.symm.trans houtN2) hl
  subst hb
  subst hc
  refine ⟨?_, ?_, ?_⟩
  · rw [hout, hout0]
    simp only [List.length_append, beBytes_length, List.length_nil]
    omega
  · rw [hout, houtN]
    simp only [List.length_append, beBytes_length]
    omega
  · rw [hout, houtN, ← hlen1, List.drop_left, List.drop_left]
    simp [List.append_assoc]

/-- C6 counterexample: for a record with exactly one variable-length field
holding 2 bytes but carrying a field applicable only to subfunction 1 and
packed under subfunction 1, `pack` raises `struct.error` (the format string
is built with `get_payload_fmt()` for the default subfunction, which omits
the subfunction-1 field), so the claimed length equation cannot hold. -/
theorem variadic_length_fails_with_subfunction_fields :
    pack variadicSubfunctionRec = .error .transcode := by decide

/-- C6 witness: the amended layout theorem applied to a concrete record
(1-byte integer 5, then the byte block `[9, 9]`): the packed output
`[5, 0, 2, 9, 9]` is two bytes longer than with the empty block
(`[5, 0, 0]`), exceeds the variadic-free record's `[5]` by `n + 2`, and
carries `[0, 2]` — the 2-byte big-endian length — immediately before the
payload. -/
theorem variadic_length_correct_witness :
    pack ⟨TinyVariadicServiceData, 0, [.vInt 5, .vBytes [9, 9]]⟩ = .ok [5, 0, 2, 9, 9]
    ∧ (([5, 0, 2, 9, 9] : List Nat).length =
        ([5, 0, 0] : List Nat).length + ([9, 9] : List Nat).length
      ∧ ([5, 0, 2, 9, 9] : List Nat).length =
          ([5] : List Nat).length + ([9, 9] : List Nat).length + 2
      ∧ ([5, 0, 2, 9, 9] : List Nat).drop 1 =
          beBytes 2 ([9, 9] : List Nat).length ++ [9, 9] ++ ([5] : List Nat).drop 1) :=
  ⟨by decide,
    variadic_length_correct [tinyIntField] [] tinyBytesField true [.vInt 5] [] [9, 9] 0
      [5, 0, 2, 9, 9] [5, 0, 0] [5]
      (by decide) (by decide) (by decide) (by decide) (by decide) rfl rfl rfl
      (by decide) (by decide) (by decide) (by decide)⟩

end UdsModel
